import Mathlib

/-!
Verification of the YOLOv5 multi-label angle-classification repository.

The development shallowly embeds the algorithmic core of two source files:

* `classify/val.py`, function `CalculateTopk_and_GetWrongSample`
  (circular angular bias, top-1 / top-K accuracy, threshold sweep);
* `classify/choosebox_and_draw.py`
  (`rotate_point`, `check_neareat_coord`, and the main drawing loop:
  axis swap, wedge reduction, ambiguous-zone matching and trigonometric
  deconvolution).

Integer-valued angles (predictions and ground truth are integer degrees)
are embedded as `ℤ`; exact label-fraction arithmetic as `ℚ`; the
real-valued trigonometric geometry as `ℝ` with `Real.cos`/`Real.sin`.
Python's `int()` truncation toward zero is embedded as `pyint`.
-/

namespace YoloV5

/-! ## Circular bias and top-K accuracy (classify/val.py, lines 59-102) -/

/-- Per-element circular bias, from val.py lines 60-61:
`bias = abs(pred - target)` followed by
`torch.where(bias <= 180, bias, 360 - bias)`. -/
def bias (p g : ℤ) : ℤ :=
  if |p - g| ≤ 180 then |p - g| else 360 - |p - g|

/-- One row of the `correct` matrix, val.py line 93:
`torch.where(bias_topk <= threshold, 1, 0).float()` applied to the row of
biases of the ranked candidates against the ground-truth angle. -/
def correctRow (t : ℤ) (row : List ℤ) (g : ℤ) : List ℚ :=
  row.map (fun p => if bias p g ≤ t then (1 : ℚ) else 0)

/-- Row-wise maximum, val.py line 96 `correct.max(1).values`.  The fold
starts at `0`, which is below every entry of a 0/1 row, so on the
nonempty rows the code works with it is the true row maximum. -/
def rowMax (l : List ℚ) : ℚ := l.foldr max 0

/-- Column mean, val.py line 97 `acc.mean(0)`. -/
def mean (l : List ℚ) : ℚ := l.sum / l.length

/-- Top-1 accuracy, val.py lines 96-97: mean of column 0 of `correct`.
A batch is a list of samples, each a ranked candidate list paired with
its ground-truth angle. -/
def top1 (t : ℤ) (S : List (List ℤ × ℤ)) : ℚ :=
  mean (S.map fun s => (correctRow t s.1 s.2).headI)

/-- Top-K accuracy, val.py lines 96-97: mean of the row maxima of
`correct` (named `top5` in the source). -/
def top5 (t : ℤ) (S : List (List ℤ × ℤ)) : ℚ :=
  mean (S.map fun s => rowMax (correctRow t s.1 s.2))

/-- Threshold sweep, val.py lines 99-102:
`for i in range(threshold+1)` recompute the accuracy pair at
threshold `i` and append it to `topk_list`. -/
def topkSweep (threshold : ℕ) (S : List (List ℤ × ℤ)) : List (ℚ × ℚ) :=
  (List.range (threshold + 1)).map fun (i : ℕ) => (top1 (i : ℤ) S, top5 (i : ℤ) S)

/-! ## Geometry (classify/choosebox_and_draw.py) -/

/-- A parsed detection-record line `angle x y w h`, choosebox_and_draw.py
lines 68-72 and 100-104: integer angle and normalized fractions.  Exact
label arithmetic is embedded over `ℚ`. -/
structure Det where
  angle : ℚ
  x : ℚ
  y : ℚ
  w : ℚ
  h : ℚ
  deriving DecidableEq

/-- Failure kinds of the geometric core (spec section 7).  The straight-line
Python raises `ValueError` when `min` is applied to an empty distance list
(the `EmptyCandidateSetError` kind) and `ZeroDivisionError` on division by
exactly zero; the embedding surfaces both through `Except`. -/
inductive GeomError where
  | emptyCandidateSet
  | degenerateGeometry
  | zeroDivision
  deriving DecidableEq

/-- Squared Euclidean distance of the query point to a candidate scaled into
pixels of the rotated image, choosebox_and_draw.py line 73. -/
def sqDist (rx ry iw ih : ℚ) (c : Det) : ℚ :=
  (rx - c.x * iw) ^ 2 + (ry - c.y * ih) ^ 2

/-- `check_neareat_coord`, choosebox_and_draw.py lines 63-76: build the list
of squared distances from the query point to every candidate (scaled by the
rotated image dimensions `iw`, `ih`), take the first index attaining
`min(dis_list)` (Python `list.index`), and return that candidate line's raw
`w`, `h` fractions.  On an empty candidate file Python raises from
`min([])`; the embedding returns the corresponding error. -/
def check_neareat_coord (rx ry iw ih : ℚ) :
    List Det → Except GeomError (ℚ × ℚ)
  | [] => .error .emptyCandidateSet
  | c0 :: cs =>
    let dis := (c0 :: cs).map (sqDist rx ry iw ih)
    let m := (cs.map (sqDist rx ry iw ih)).foldl min (sqDist rx ry iw ih c0)
    let c := (c0 :: cs).getD (dis.indexOf m) c0
    .ok (c.w, c.h)

/-- Degrees to radians, Python `math.radians`. -/
noncomputable def radians (d : ℝ) : ℝ := d * (Real.pi / 180)

/-- Python `int()`: truncation toward zero. -/
noncomputable def pyint (r : ℝ) : ℤ := if 0 ≤ r then ⌊r⌋ else ⌈r⌉

/-- Side of the rotated square canvas,
`int((w + h) * math.cos(math.radians(angle)))`, computed identically in
`create_rotated45_img` (line 40, with angle 45) and `rotate_point`
(line 52). -/
noncomputable def rotSide (w h angle : ℝ) : ℤ :=
  pyint ((w + h) * Real.cos (radians angle))

/-- `rotate_point`, choosebox_and_draw.py lines 49-61: translate to the
canvas center, rotate clockwise by `angle`, re-center into the (larger)
rotated canvas, truncate to integer pixel coordinates. -/
noncomputable def rotate_point (x y w h angle : ℝ) : ℤ × ℤ :=
  let angle_rad := radians angle
  let rw := rotSide w h angle
  let rh := rw
  let x1 := x - w / 2
  let y1 := y - h / 2
  let x_rotated := x1 * Real.cos angle_rad + y1 * Real.sin angle_rad
  let y_rotated := -x1 * Real.sin angle_rad + y1 * Real.cos angle_rad
  (pyint (x_rotated + w / 2 + ((rw : ℝ) - w) / 2),
   pyint (y_rotated + h / 2 + ((rh : ℝ) - h) / 2))

/-- Wedge reduction step 1, choosebox_and_draw.py line 143:
`restrict_angle180 = angle if angle < 180 else angle - 180`. -/
def restrict_angle180 (angle : ℚ) : ℚ :=
  if angle < 180 then angle else angle - 180

/-- Wedge reduction step 2, line 144. -/
def restrict_angle90 (angle : ℚ) : ℚ :=
  let a := restrict_angle180 angle
  if a ≤ 90 then a else a - 90

/-- Wedge reduction step 3, line 145. -/
def restrict_angle45 (angle : ℚ) : ℚ :=
  let a := restrict_angle90 angle
  if a ≤ 45 then a else 90 - a

/-- Axis swap, choosebox_and_draw.py lines 105-106:
`if w > h: w, h = h, w`. -/
noncomputable def axisSwap (w h : ℝ) : ℝ × ℝ :=
  if h < w then (h, w) else (w, h)

/-- Trigonometric deconvolution step, choosebox_and_draw.py lines 161-162:
`rw = w*cos - h*sin; rh = (h - rw*sin) / cos`, as a function of the
precomputed cosine and sine values.  Python raises `ZeroDivisionError` when
the divisor is exactly zero and otherwise divides unconditionally; there is
no near-zero guard in the source. -/
def deconvolve (w h c s : ℚ) : Except GeomError (ℚ × ℚ) :=
  if c = 0 then .error .zeroDivision
  else
    let rw := w * c - h * s
    .ok (rw, (h - rw * s) / c)

/-- Extent reconstruction of the main drawing loop, choosebox_and_draw.py
lines 142-162, with the matched rotated-frame fractions `mw`, `mh` (the
value returned by `check_neareat_coord`) passed in as parameters and `iw`,
`ih` the primary image dimensions.  In the `a90 = 0` or `a90 = 90` case the
loop applies no correction, leaving the detected extents `(w, h)`. -/
noncomputable def reconstruct_extents (angle : ℚ) (w h mw mh iw ih : ℝ) :
    ℝ × ℝ :=
  let a90 := restrict_angle90 angle
  let a45 := restrict_angle45 angle
  if a90 ≠ 0 ∧ a90 ≠ 90 then
    if 22.5 < a90 ∧ a90 < 67.5 then
      let rw := mw * iw
      let rh := mh * ih
      if rh < rw then (rh, rw) else (rw, rh)
    else
      let c := Real.cos (radians (a45 : ℝ))
      let s := Real.sin (radians (a45 : ℝ))
      let rw := w * c - h * s
      (rw, (h - rw * s) / c)
  else
    (w, h)

/-- A rotated-frame candidate located at the pixel point (98, 42) of a
141-by-141 rotated canvas, with extents (1/10, 3/10). -/
def candA : Det := ⟨0, 98 / 141, 42 / 141, 1 / 10, 3 / 10⟩

/-- A rotated-frame candidate located at the pixel point (90, 50) of a
141-by-141 rotated canvas, with extents (1/5, 2/5). -/
def candB : Det := ⟨0, 90 / 141, 50 / 141, 1 / 5, 2 / 5⟩

end YoloV5

namespace YoloV5

/-! ## Claim theorems for the evaluator -/

/-- Claim C1: for all angles `a`, `b` in `[0,360)` the computed circular
bias equals `min (|a-b|) (360-|a-b|)`, is symmetric, lies in `[0,180]`,
vanishes on the diagonal, and equals `180` at the antipode
`(a+180) mod 360`. -/
theorem c1_circular_distance (a b : ℤ)
    (ha0 : 0 ≤ a) (ha1 : a < 360) (hb0 : 0 ≤ b) (hb1 : b < 360) :
    bias a b = min |a - b| (360 - |a - b|) ∧
    bias a b = bias b a ∧
    0 ≤ bias a b ∧ bias a b ≤ 180 ∧
    bias a a = 0 ∧
    bias a ((a + 180) % 360) = 180 := by
  simp only [bias, abs_sub_comm a b]
  constructor
  · rcases abs_cases (b - a) with ⟨h1, h2⟩ | ⟨h1, h2⟩ <;> rw [h1] <;> omega
  constructor
  · trivial
  rcases abs_cases (b - a) with ⟨h1, h2⟩ | ⟨h1, h2⟩ <;> rw [h1] <;>
    refine ⟨by omega, by omega, by simp, ?_⟩ <;>
    · have habs : |a - (a + 180) % 360| = 180 := by
        rcases abs_cases (a - (a + 180) % 360) with ⟨h3, h4⟩ | ⟨h3, h4⟩ <;> omega
      rw [habs] <;> omega

/-- Helper: the sum of column 0 of the `correct` matrix counts the samples
whose rank-0 candidate is within threshold. -/
theorem sum_headI_eq_countP (t : ℤ) (S : List (List ℤ × ℤ))
    (h : ∀ s ∈ S, s.1 ≠ []) :
    (S.map fun s => (correctRow t s.1 s.2).headI).sum
      = ((S.countP fun s => decide (bias s.1.headI s.2 ≤ t) : ℕ) : ℚ) := by
  induction S with
  | nil => simp
  | cons s S ih =>
    have hs : s.1 ≠ [] := h s (List.mem_cons_self s S)
    have ihS := ih (fun x hx => h x (List.mem_cons_of_mem s hx))
    obtain ⟨q, qs, hq⟩ := List.exists_cons_of_ne_nil hs
    simp only [List.map_cons, List.sum_cons, List.countP_cons, ihS, hq]
    simp only [correctRow, List.map_cons, List.headI_cons]
    by_cases hb : bias q s.2 ≤ t <;> simp [hb] <;> push_cast <;> ring

/-- Helper: the row maximum of a 0/1 `correct` row is the indicator that some
candidate in the row is within threshold. -/
theorem rowMax_correctRow (t g : ℤ) (row : List ℤ) :
    rowMax (correctRow t row g)
      = if row.any (fun p => decide (bias p g ≤ t)) then (1 : ℚ) else 0 := by
  induction row with
  | nil => simp [rowMax, correctRow]
  | cons q qs ih =>
    simp only [correctRow, rowMax, List.map_cons, List.foldr_cons, List.any_cons] at *
    rw [ih]
    by_cases hb : bias q g ≤ t <;> simp [hb] <;> split_ifs <;> norm_num [max_def]

/-- Helper: the sum of the row maxima counts the samples with at least one
candidate within threshold. -/
theorem sum_rowMax_eq_countP (t : ℤ) (S : List (List ℤ × ℤ)) :
    (S.map fun s => rowMax (correctRow t s.1 s.2)).sum
      = ((S.countP fun s => s.1.any fun p => decide (bias p s.2 ≤ t) : ℕ) : ℚ) := by
  induction S with
  | nil => simp
  | cons s S ih =>
    rw [List.map_cons, List.sum_cons, List.countP_cons, ih, rowMax_correctRow]
    by_cases h : s.1.any (fun p => decide (bias p s.2 ≤ t)) = true
    · rw [if_pos h, if_pos h]
      push_cast
      ring
    · rw [if_neg h, if_neg h]
      push_cast
      ring

/-- Helper: per-sample top-1 indicator is monotone in the threshold. -/
theorem headI_correctRow_mono {t1 t2 : ℤ} (h : t1 ≤ t2) (row : List ℤ) (g : ℤ) :
    (correctRow t1 row g).headI ≤ (correctRow t2 row g).headI := by
  cases row with
  | nil => simp [correctRow]
  | cons q qs =>
    simp only [correctRow, List.map_cons, List.headI_cons]
    split_ifs with h1 h2 h2
    · norm_num
    · exact absurd (h1.trans h) h2
    · norm_num
    · norm_num

/-- Helper: per-sample top-K indicator is monotone in the threshold. -/
theorem rowMax_correctRow_mono {t1 t2 : ℤ} (h : t1 ≤ t2) (row : List ℤ) (g : ℤ) :
    rowMax (correctRow t1 row g) ≤ rowMax (correctRow t2 row g) := by
  rw [rowMax_correctRow, rowMax_correctRow]
  split_ifs with h1 h2 h2
  · norm_num
  · refine absurd (List.any_eq_true.mpr ?_) h2
    obtain ⟨p, hp, hb⟩ := List.any_eq_true.mp h1
    simp only [decide_eq_true_eq] at hb ⊢
    exact ⟨p, hp, by omega⟩
  · norm_num
  · norm_num

/-- Claim C2: top-1 accuracy is the fraction of samples whose rank-0
candidate has circular bias within the threshold, and top-K accuracy the
fraction of samples with at least one ranked candidate within it. -/
theorem c2_topk_accuracy (t : ℤ) (K : ℕ) (S : List (List ℤ × ℤ))
    (hK : 0 < K) (hrows : ∀ s ∈ S, s.1.length = K) :
    top1 t S = ((S.countP fun s => decide (bias s.1.headI s.2 ≤ t) : ℕ) : ℚ)
        / S.length ∧
    top5 t S = ((S.countP fun s => s.1.any fun p => decide (bias p s.2 ≤ t) : ℕ) : ℚ)
        / S.length := by
  have hne : ∀ s ∈ S, s.1 ≠ [] := by
    intro s hs hnil
    have hl := hrows s hs
    rw [hnil] at hl
    simp at hl
    omega
  constructor
  · unfold top1 mean
    rw [sum_headI_eq_countP t S hne, List.length_map]
  · unfold top5 mean
    rw [sum_rowMax_eq_countP t S, List.length_map]

/-- Claim C2 witness: a concrete two-sample batch with two candidates each,
at threshold 10: only the first sample has its rank-0 candidate (and any
candidate) within tolerance. -/
theorem c2_topk_accuracy_witness :
    top1 10 [([10, 200], 15), ([90, 91], 300)] = 1 / 2 ∧
    top5 10 [([10, 200], 15), ([90, 91], 300)] = 1 / 2 := by
  have h := c2_topk_accuracy 10 2 [([10, 200], 15), ([90, 91], 300)]
    (by decide) (by decide)
  rw [h.1, h.2]
  norm_num [List.countP, List.countP.go, bias]

/-- Claim C3: the threshold sweep yields one (top1, topK) pair for every
integer threshold from 0 to the configured maximum, and for a non-empty
batch both accuracy curves are non-decreasing in the threshold. -/
theorem c3_threshold_sweep (threshold : ℕ) (S : List (List ℤ × ℤ))
    (hS : S ≠ []) :
    (topkSweep threshold S).length = threshold + 1 ∧
    (∀ i : ℕ, i ≤ threshold →
      (topkSweep threshold S).getD i (0, 0) = (top1 (i : ℤ) S, top5 (i : ℤ) S)) ∧
    (∀ t1 t2 : ℤ, t1 < t2 → top1 t1 S ≤ top1 t2 S ∧ top5 t1 S ≤ top5 t2 S) := by
  refine ⟨by rw [topkSweep, List.length_map, List.length_range], ?_, ?_⟩
  · intro i hi
    have hlt : i < (List.range (threshold + 1)).length := by
      rw [List.length_range]
      omega
    rw [topkSweep, List.getD_eq_getElem _ _ (by rw [List.length_map]; exact hlt),
      List.getElem_map, List.getElem_range]
  · intro t1 t2 ht
    have hlen : (0 : ℚ) ≤ (S.length : ℚ) := by positivity
    constructor
    · unfold top1 mean
      rw [List.length_map, List.length_map]
      exact div_le_div_of_nonneg_right
        (List.sum_le_sum fun s _ => headI_correctRow_mono ht.le s.1 s.2) hlen
    · unfold top5 mean
      rw [List.length_map, List.length_map]
      exact div_le_div_of_nonneg_right
        (List.sum_le_sum fun s _ => rowMax_correctRow_mono ht.le s.1 s.2) hlen

/-- Claim C3 witness: concrete sweep on a one-sample batch. -/
theorem c3_threshold_sweep_witness :
    (topkSweep 2 [([10, 20], 15)]).length = 3 ∧
    top1 0 [([10, 20], 15)] ≤ top1 1 [([10, 20], 15)] := by
  have h := c3_threshold_sweep 2 [([10, 20], 15)] (by simp)
  exact ⟨h.1, (h.2.2 0 1 (by decide)).1⟩

/-- Claim C6: for every integer angle in `[0,360)` the wedge reduction
computes `a180 = angle mod 180`, subtracts `90` from `a180` when it exceeds
`90`, reflects `a90` at `45`, and on the concrete inputs `200` and `300`
produces `(20, 20, 20)` and `(120, 30, 30)`. -/
theorem c6_wedge_reduction (a : ℤ) (h0 : 0 ≤ a) (h1 : a < 360) :
    restrict_angle180 (a : ℚ) = ((a % 180 : ℤ) : ℚ) ∧
    restrict_angle90 (a : ℚ)
      = (if restrict_angle180 (a : ℚ) ≤ 90 then restrict_angle180 (a : ℚ)
         else restrict_angle180 (a : ℚ) - 90) ∧
    restrict_angle45 (a : ℚ)
      = (if restrict_angle90 (a : ℚ) ≤ 45 then restrict_angle90 (a : ℚ)
         else 90 - restrict_angle90 (a : ℚ)) ∧
    (restrict_angle180 200 = 20 ∧ restrict_angle90 200 = 20 ∧
      restrict_angle45 200 = 20) ∧
    (restrict_angle180 300 = 120 ∧ restrict_angle90 300 = 30 ∧
      restrict_angle45 300 = 30) := by
  refine ⟨?_, rfl, rfl,
    by norm_num [restrict_angle180, restrict_angle90, restrict_angle45],
    by norm_num [restrict_angle180, restrict_angle90, restrict_angle45]⟩
  unfold restrict_angle180
  rcases lt_or_le a 180 with hlt | hge
  · rw [if_pos (by exact_mod_cast hlt)]
    have : a % 180 = a := by omega
    rw [this]
  · rw [if_neg (not_lt.mpr (by exact_mod_cast hge))]
    have : a % 180 = a - 180 := by omega
    rw [this]
    push_cast
    ring

/-- Claim C6 witness at angle 200. -/
theorem c6_wedge_reduction_witness :
    (0 : ℤ) ≤ 200 ∧ (200 : ℤ) < 360 ∧
    restrict_angle180 ((200 : ℤ) : ℚ) = (((200 : ℤ) % 180 : ℤ) : ℚ) ∧
    (restrict_angle180 200 = 20 ∧ restrict_angle90 200 = 20 ∧
      restrict_angle45 200 = 20) :=
  ⟨by decide, by decide, (c6_wedge_reduction 200 (by decide) (by decide)).1,
   (c6_wedge_reduction 200 (by decide) (by decide)).2.2.2.1⟩

/-- Claim C10: on an empty candidate set the matcher fails with the
empty-candidate-set error kind (the uncaught exception Python raises from
`min` of the empty distance list), which propagates — there is no silent
default; on any non-empty candidate set it returns a candidate's extents. -/
theorem c10_empty_candidates (rx ry iw ih : ℚ) :
    check_neareat_coord rx ry iw ih [] = .error .emptyCandidateSet ∧
    ∀ (c : Det) (cs : List Det), ∃ w h : ℚ,
      check_neareat_coord rx ry iw ih (c :: cs) = .ok (w, h) :=
  ⟨rfl, fun c cs => ⟨_, _, rfl⟩⟩

/-- Claim C5: branch structure of the extent reconstruction.  In the
ambiguous zone `22.5 < a90 < 67.5` the result is the matched rotated-frame
extents scaled by the primary image dimensions, re-normalized so the first
component is the smaller; in the non-ambiguous, non-axis-aligned zone it is
the trigonometric deconvolution `(w·cos a45 − h·sin a45,
(h − rw·sin a45)/cos a45)`; when `a90` is `0` or `90` the detected extents
are kept unchanged. -/
theorem c5_reconstruction_branches (angle : ℚ) (w h mw mh iw ih : ℝ) :
    (22.5 < restrict_angle90 angle → restrict_angle90 angle < 67.5 →
      reconstruct_extents angle w h mw mh iw ih
        = (min (mw * iw) (mh * ih), max (mw * iw) (mh * ih))) ∧
    (restrict_angle90 angle ≠ 0 → restrict_angle90 angle ≠ 90 →
      ¬(22.5 < restrict_angle90 angle ∧ restrict_angle90 angle < 67.5) →
      reconstruct_extents angle w h mw mh iw ih
        = (w * Real.cos (radians ((restrict_angle45 angle : ℚ) : ℝ))
             - h * Real.sin (radians ((restrict_angle45 angle : ℚ) : ℝ)),
           (h - (w * Real.cos (radians ((restrict_angle45 angle : ℚ) : ℝ))
                  - h * Real.sin (radians ((restrict_angle45 angle : ℚ) : ℝ)))
                * Real.sin (radians ((restrict_angle45 angle : ℚ) : ℝ)))
             / Real.cos (radians ((restrict_angle45 angle : ℚ) : ℝ)))) ∧
    (restrict_angle90 angle = 0 ∨ restrict_angle90 angle = 90 →
      reconstruct_extents angle w h mw mh iw ih = (w, h)) := by
  refine ⟨?_, ?_, ?_⟩
  · intro hlo hhi
    have hne : restrict_angle90 angle ≠ 0 ∧ restrict_angle90 angle ≠ 90 :=
      ⟨by intro hz; rw [hz] at hlo; norm_num at hlo,
       by intro hz; rw [hz] at hhi; norm_num at hhi⟩
    unfold reconstruct_extents
    rw [if_pos hne, if_pos ⟨hlo, hhi⟩]
    rcases lt_or_le (mh * ih) (mw * iw) with hswap | hswap
    · rw [if_pos hswap, min_eq_right hswap.le, max_eq_left hswap.le]
    · rw [if_neg (not_lt.mpr hswap), min_eq_left hswap, max_eq_right hswap]
  · intro h0 h90 hamb
    unfold reconstruct_extents
    rw [if_pos ⟨h0, h90⟩, if_neg hamb]
  · intro hdeg
    unfold reconstruct_extents
    rw [if_neg (by tauto)]

/-- Claim C5 witness: at angle 30 the ambiguous branch fires. -/
theorem c5_reconstruction_branches_witness :
    (22.5 : ℚ) < restrict_angle90 30 ∧ restrict_angle90 30 < 67.5 ∧
    reconstruct_extents 30 1 2 (1 / 10) (3 / 10) 100 200
      = (min ((1 / 10 : ℝ) * 100) ((3 / 10 : ℝ) * 200),
         max ((1 / 10 : ℝ) * 100) ((3 / 10 : ℝ) * 200)) :=
  ⟨by norm_num [restrict_angle90, restrict_angle180],
   by norm_num [restrict_angle90, restrict_angle180],
   (c5_reconstruction_branches 30 1 2 (1 / 10) (3 / 10) 100 200).1
     (by norm_num [restrict_angle90, restrict_angle180])
     (by norm_num [restrict_angle90, restrict_angle180])⟩

/-- Helper: the wedge reduction lands in `[0,90]` for angles in `[0,360)`. -/
theorem restrict_angle90_bounds (q : ℚ) (h0 : 0 ≤ q) (h1 : q < 360) :
    0 ≤ restrict_angle90 q ∧ restrict_angle90 q ≤ 90 := by
  simp only [restrict_angle90, restrict_angle180]
  split_ifs <;> constructor <;> linarith

/-- Helper: the wedge reduction lands in `[0,45]` for angles in `[0,360)`. -/
theorem restrict_angle45_bounds (q : ℚ) (h0 : 0 ≤ q) (h1 : q < 360) :
    0 ≤ restrict_angle45 q ∧ restrict_angle45 q ≤ 45 := by
  have h := restrict_angle90_bounds q h0 h1
  simp only [restrict_angle45]
  split_ifs with hc <;> constructor <;> linarith [h.1, h.2]

/-- Helper: trigonometric facts about a wedge angle in `[0,45]` degrees:
its cosine is positive, dominates its sine and the cosine of 45 degrees,
and is at most 1; its sine is nonneg. -/
theorem trig_wedge_facts (q : ℚ) (h0 : 0 ≤ q) (h45 : q ≤ 45) :
    0 < Real.cos (radians ((q : ℚ) : ℝ)) ∧
    0 ≤ Real.sin (radians ((q : ℚ) : ℝ)) ∧
    Real.sin (radians ((q : ℚ) : ℝ)) ≤ Real.cos (radians ((q : ℚ) : ℝ)) ∧
    Real.cos (radians ((q : ℚ) : ℝ)) ≤ 1 ∧
    Real.cos (radians (45 : ℝ)) ≤ Real.cos (radians ((q : ℚ) : ℝ)) := by
  have hq0 : (0 : ℝ) ≤ ((q : ℚ) : ℝ) := by exact_mod_cast h0
  have hq45 : ((q : ℚ) : ℝ) ≤ 45 := by exact_mod_cast h45
  have hpi := Real.pi_pos
  have hx0 : 0 ≤ radians ((q : ℚ) : ℝ) := by
    unfold radians
    positivity
  have hx45 : radians ((q : ℚ) : ℝ) ≤ Real.pi / 4 := by
    unfold radians
    have hm : ((q : ℚ) : ℝ) * (Real.pi / 180) ≤ 45 * (Real.pi / 180) :=
      mul_le_mul_of_nonneg_right hq45 (by positivity)
    linarith
  have hcpos : 0 < Real.cos (radians ((q : ℚ) : ℝ)) :=
    Real.cos_pos_of_mem_Ioo ⟨by linarith, by linarith⟩
  have hsnn : 0 ≤ Real.sin (radians ((q : ℚ) : ℝ)) :=
    Real.sin_nonneg_of_nonneg_of_le_pi hx0 (by linarith)
  have hsc : Real.sin (radians ((q : ℚ) : ℝ))
      ≤ Real.cos (radians ((q : ℚ) : ℝ)) := by
    have hcadd : 0 ≤ Real.cos (radians ((q : ℚ) : ℝ) + Real.pi / 4) :=
      Real.cos_nonneg_of_mem_Icc ⟨by linarith, by linarith⟩
    rw [Real.cos_add, Real.cos_pi_div_four, Real.sin_pi_div_four] at hcadd
    have hs2 : (0 : ℝ) < Real.sqrt 2 := Real.sqrt_pos.mpr (by norm_num)
    nlinarith [hcadd, hs2]
  have h45eq : radians (45 : ℝ) = Real.pi / 4 := by
    unfold radians
    ring
  refine ⟨hcpos, hsnn, hsc, Real.cos_le_one _, ?_⟩
  rw [h45eq]
  exact Real.cos_le_cos_of_nonneg_of_le_pi hx0 (by linarith) hx45

/-- Helper: the trigonometric deconvolution preserves the short-first
ordering of the extents: with cosine and sine values `c ≥ s ≥ 0`, `c ≤ 1`,
`c > 0` and detected extents `0 ≤ w ≤ h`, the recovered width is at most
the recovered height. -/
theorem deconv_width_le_height (w h c s : ℝ) (hw : 0 ≤ w) (hwh : w ≤ h)
    (hs0 : 0 ≤ s) (hsc : s ≤ c) (hc1 : c ≤ 1) (hc0 : 0 < c) :
    w * c - h * s ≤ (h - (w * c - h * s) * s) / c := by
  rw [le_div_iff hc0]
  nlinarith [mul_nonneg (sub_nonneg.mpr hwh) (mul_self_nonneg c),
    mul_nonneg (sub_nonneg.mpr hwh) (mul_nonneg hc0.le hs0),
    mul_nonneg (hw.trans hwh) (mul_self_nonneg s),
    mul_nonneg (hw.trans hwh)
      (mul_nonneg (sub_nonneg.mpr hc1) (by linarith : (0 : ℝ) ≤ 1 + c))]

/-- Claim C7: the width-not-exceeding-height invariant holds in every
branch: the initial axis swap orders the detected extents, and for any
detection with nonnegative extents the reconstructed extents (fed the
swapped detected extents) satisfy first ≤ second — via the ambiguous-zone
re-normalization or via the trigonometric deconvolution. -/
theorem c7_width_le_height (angle : ℚ) (w h mw mh iw ih : ℝ)
    (ha0 : 0 ≤ angle) (ha1 : angle < 360) (hw : 0 ≤ w) (hh : 0 ≤ h) :
    (axisSwap w h).1 ≤ (axisSwap w h).2 ∧
    (reconstruct_extents angle (axisSwap w h).1 (axisSwap w h).2
        mw mh iw ih).1
      ≤ (reconstruct_extents angle (axisSwap w h).1 (axisSwap w h).2
        mw mh iw ih).2 := by
  have hswap : (axisSwap w h).1 ≤ (axisSwap w h).2 ∧
      0 ≤ (axisSwap w h).1 := by
    unfold axisSwap
    split_ifs with hlt
    · exact ⟨hlt.le, hh⟩
    · exact ⟨not_lt.mp hlt, hw⟩
  refine ⟨hswap.1, ?_⟩
  set w1 := (axisSwap w h).1 with hw1
  set h1 := (axisSwap w h).2 with hh1
  have h45 := restrict_angle45_bounds angle ha0 ha1
  have htrig := trig_wedge_facts (restrict_angle45 angle) h45.1 h45.2
  unfold reconstruct_extents
  dsimp only
  split_ifs with hbr hamb hlt
  · exact hlt.le
  · exact not_lt.mp hlt
  · exact deconv_width_le_height w1 h1 _ _ hswap.2 hswap.1
      htrig.2.1 htrig.2.2.1 htrig.2.2.2.1 htrig.1
  · exact hswap.1

/-- Claim C7 witness at angle 30 with detected extents 2 > 1 (so the axis
swap fires) and matched extents 0. -/
theorem c7_width_le_height_witness :
    (0 : ℚ) ≤ 30 ∧ (30 : ℚ) < 360 ∧ (0 : ℝ) ≤ 2 ∧ (0 : ℝ) ≤ 1 ∧
    ((axisSwap 2 1).1 ≤ (axisSwap 2 1).2 ∧
     (reconstruct_extents 30 (axisSwap 2 1).1 (axisSwap 2 1).2 0 0 0 0).1
       ≤ (reconstruct_extents 30 (axisSwap 2 1).1 (axisSwap 2 1).2 0 0 0 0).2) :=
  ⟨by norm_num, by norm_num, by norm_num, by norm_num,
   c7_width_le_height 30 2 1 0 0 0 0 (by norm_num) (by norm_num)
     (by norm_num) (by norm_num)⟩

/-- Claim C9 counterexample: the implementation has no near-zero guard.
At cosine value `1/1000` — near zero but nonzero — the deconvolution step
divides and returns a value instead of failing with the degenerate-geometry
error the claim asserts. -/
theorem c9_no_near_zero_guard :
    deconvolve 1 2 (1 / 1000) (9 / 10) = .ok (-1799 / 1000, 36191 / 10) ∧
    deconvolve 1 2 (1 / 1000) (9 / 10) ≠ .error .degenerateGeometry := by
  have h : deconvolve 1 2 (1 / 1000) (9 / 10)
      = .ok (-1799 / 1000, 36191 / 10) := by
    unfold deconvolve
    rw [if_neg (by norm_num)]
    simp only [Except.ok.injEq, Prod.mk.injEq]
    constructor <;> norm_num
  refine ⟨h, ?_⟩
  rw [h]
  exact fun hc => Except.noConfusion hc

/-- Claim C9 (amended): division by zero cannot occur — the wedge reduction
keeps `a45` in `[0,45]`, so the cosine divisor is bounded below by
`cos 45 > 0` — but the implementation divides unguarded: for every nonzero
cosine value, near zero or not, the deconvolution returns a value and never
a degenerate-geometry failure. -/
theorem c9_cos_bounded_no_guard (angle : ℚ)
    (h0 : 0 ≤ angle) (h1 : angle < 360) :
    Real.cos (radians (45 : ℝ))
        ≤ Real.cos (radians ((restrict_angle45 angle : ℚ) : ℝ)) ∧
    0 < Real.cos (radians (45 : ℝ)) ∧
    ∀ (w h s c : ℚ), c ≠ 0 → ∃ v, deconvolve w h c s = .ok v := by
  have h45 := restrict_angle45_bounds angle h0 h1
  have htrig := trig_wedge_facts (restrict_angle45 angle) h45.1 h45.2
  refine ⟨htrig.2.2.2.2, ?_, ?_⟩
  · have h45eq : radians (45 : ℝ) = Real.pi / 4 := by
      unfold radians
      ring
    rw [h45eq, Real.cos_pi_div_four]
    positivity
  · intro w h s c hc
    refine ⟨(w * c - h * s, (h - (w * c - h * s) * s) / c), ?_⟩
    unfold deconvolve
    rw [if_neg hc]

/-- Claim C9 witness at angle 100. -/
theorem c9_cos_bounded_no_guard_witness :
    (0 : ℚ) ≤ 100 ∧ (100 : ℚ) < 360 ∧
    (Real.cos (radians (45 : ℝ))
        ≤ Real.cos (radians ((restrict_angle45 100 : ℚ) : ℝ)) ∧
     0 < Real.cos (radians (45 : ℝ)) ∧
     ∀ (w h s c : ℚ), c ≠ 0 → ∃ v, deconvolve w h c s = .ok v) :=
  ⟨by norm_num, by norm_num,
   c9_cos_bounded_no_guard 100 (by norm_num) (by norm_num)⟩

/-- Helper: a rational lower bound on the square root of two. -/
theorem sqrt_two_gt : (1.4142 : ℝ) < Real.sqrt 2 :=
  (Real.lt_sqrt (by norm_num)).mpr (by norm_num)

/-- Helper: a rational upper bound on the square root of two. -/
theorem sqrt_two_lt : Real.sqrt 2 < 1.4143 :=
  (Real.sqrt_lt' (by norm_num)).mpr (by norm_num)

/-- Claim C8 counterexample: the rotated canvas side is the truncation, not
the rounding, of `(W+H)·cos θ`.  At `W = 100`, `H = 105`, `θ = 45` the code
computes side `int(205·cos 45°) = 144` while the claimed
`round(205·cos 45°)` is `145`. -/
theorem c8_side_truncates_not_rounds :
    rotSide 100 105 45 = 144 ∧
    round ((100 + 105 : ℝ) * Real.cos (radians 45)) = 145 := by
  have h45eq : radians (45 : ℝ) = Real.pi / 4 := by
    unfold radians
    ring
  have hl := sqrt_two_gt
  have hu := sqrt_two_lt
  constructor
  · unfold rotSide pyint
    rw [h45eq, Real.cos_pi_div_four, if_pos (by positivity)]
    rw [Int.floor_eq_iff]
    constructor
    · push_cast
      linarith
    · push_cast
      linarith
  · rw [h45eq, Real.cos_pi_div_four, round_eq]
    rw [Int.floor_eq_iff]
    constructor
    · push_cast
      linarith
    · push_cast
      linarith

/-- Claim C8 (amended): the rotated canvas side is the truncation toward
zero of `(W+H)·cos θ` — the floor, whenever that quantity is nonnegative —
and the projection computes
`x' = (x − W/2)·cos θ + (y − H/2)·sin θ + W/2 + (R−W)/2` with the symmetric
form for `y'`, each truncated to an integer pixel coordinate. -/
theorem c8_projection (x y w h angle : ℝ)
    (hnn : 0 ≤ (w + h) * Real.cos (radians angle)) :
    rotSide w h angle = ⌊(w + h) * Real.cos (radians angle)⌋ ∧
    rotate_point x y w h angle
      = (pyint ((x - w / 2) * Real.cos (radians angle)
            + (y - h / 2) * Real.sin (radians angle)
            + w / 2 + ((rotSide w h angle : ℝ) - w) / 2),
         pyint (-(x - w / 2) * Real.sin (radians angle)
            + (y - h / 2) * Real.cos (radians angle)
            + h / 2 + ((rotSide w h angle : ℝ) - h) / 2)) := by
  constructor
  · unfold rotSide pyint
    rw [if_pos hnn]
  · rfl

/-- Claim C8 witness at the identity rotation. -/
theorem c8_projection_witness :
    (0 : ℝ) ≤ (1 + 1) * Real.cos (radians 0) ∧
    rotSide 1 1 0 = ⌊(1 + 1 : ℝ) * Real.cos (radians 0)⌋ :=
  ⟨by norm_num [radians, Real.cos_zero],
   (c8_projection 0 0 1 1 0 (by norm_num [radians, Real.cos_zero])).1⟩

/-- Claim C4: the drawing loop's ambiguous branch computes the projected
point `rotate_point(x, y, W, H, 45) = (98, 42)` but then matches with the
raw query `(90, 50)`: against the two candidates the raw query selects the
candidate at `(90, 50)` with extents `(1/5, 2/5)`, whereas matching at the
projected point — as the claim requires — selects the candidate at
`(98, 42)` with extents `(1/10, 3/10)`. -/
theorem c4_matcher_uses_unprojected_point :
    rotate_point 90 50 100 100 45 = (98, 42) ∧
    check_neareat_coord 90 50 141 141 [candA, candB] = .ok (1 / 5, 2 / 5) ∧
    check_neareat_coord 98 42 141 141 [candA, candB] = .ok (1 / 10, 3 / 10) ∧
    ((1 / 5 : ℚ), (2 / 5 : ℚ)) ≠ ((1 / 10 : ℚ), (3 / 10 : ℚ)) := by
  have h45eq : radians (45 : ℝ) = Real.pi / 4 := by
    unfold radians
    ring
  have hl := sqrt_two_gt
  have hu := sqrt_two_lt
  have hside : rotSide 100 100 45 = 141 := by
    unfold rotSide pyint
    rw [h45eq, Real.cos_pi_div_four, if_pos (by positivity)]
    rw [Int.floor_eq_iff]
    constructor
    · push_cast
      linarith
    · push_cast
      linarith
  refine ⟨?_, ?_, ?_, by norm_num⟩
  · unfold rotate_point
    dsimp only
    rw [hside, h45eq, Real.cos_pi_div_four, Real.sin_pi_div_four]
    unfold pyint
    rw [if_pos (by push_cast; nlinarith), if_pos (by push_cast; nlinarith)]
    simp only [Prod.mk.injEq]
    constructor
    · rw [Int.floor_eq_iff]
      constructor
      · push_cast
        nlinarith
      · push_cast
        nlinarith
    · rw [Int.floor_eq_iff]
      constructor
      · push_cast
        nlinarith
      · push_cast
        nlinarith
  · have hA : sqDist 90 50 141 141 candA = 128 := by
      norm_num [sqDist, candA]
    have hB : sqDist 90 50 141 141 candB = 0 := by
      norm_num [sqDist, candB]
    unfold check_neareat_coord
    dsimp only
    rw [List.map_cons, List.map_nil, List.map_cons, List.map_cons,
      List.map_nil, hA, hB]
    norm_num [List.indexOf_cons, List.getD, candB]
  · have hA : sqDist 98 42 141 141 candA = 0 := by
      norm_num [sqDist, candA]
    have hB : sqDist 98 42 141 141 candB = 128 := by
      norm_num [sqDist, candB]
    unfold check_neareat_coord
    dsimp only
    rw [List.map_cons, List.map_nil, List.map_cons, List.map_cons,
      List.map_nil, hA, hB]
    norm_num [List.indexOf_cons, List.getD, candA]

/-- Claim C1 witness at `a = 10`, `b = 300`. -/
theorem c1_circular_distance_witness :
    (0 : ℤ) ≤ 10 ∧ (10 : ℤ) < 360 ∧ (0 : ℤ) ≤ 300 ∧ (300 : ℤ) < 360 ∧
    (bias 10 300 = min |(10 : ℤ) - 300| (360 - |(10 : ℤ) - 300|) ∧
     bias 10 300 = bias 300 10 ∧
     0 ≤ bias 10 300 ∧ bias 10 300 ≤ 180 ∧
     bias 10 10 = 0 ∧
     bias 10 ((10 + 180) % 360) = 180) :=
  ⟨by decide, by decide, by decide, by decide,
   c1_circular_distance 10 300 (by decide) (by decide) (by decide) (by decide)⟩

end YoloV5
